import Mathlib

/-!
Verification of the mcp-datadog server core against its specification.

The Rust source is embedded shallowly:
* `src/cache.rs` — `CacheEntry`, `GenericCache` with `get` / `set` /
  `get_or_fetch` / `evict_lru`.  `Instant` is modelled as a `Nat` timestamp
  passed explicitly to each operation; the `HashMap` is modelled as an
  association list whose keys are kept distinct.
* `src/datadog/retry.rs` — `MAX_RETRIES`, `calculate_backoff`, `should_retry`.
* `src/datadog/client.rs` — the retry loop of `DatadogClient::request`
  (outcomes of individual attempts are an oracle `Nat → Except DatadogError α`)
  and the status classification of `handle_response`.
* `src/server/protocol.rs` / `src/server/router.rs` — the JSON-RPC envelope
  types, `handle_tool_call`, and the parse-failure path of `Server::run`.
  JSON values are modelled by the inductive `Json`.
-/

namespace McpDatadog

/-! ### src/cache.rs : data model -/

structure CacheEntry (T : Type) where
  data : T
  created_at : Nat
  last_accessed : Nat
deriving Repr, DecidableEq

/-- Model of `CacheEntry::new` — both timestamps are set to the current instant. -/
def CacheEntry.new (now : Nat) (data : T) : CacheEntry T :=
  { data := data, created_at := now, last_accessed := now }

/-- Model of `CacheEntry::age`, i.e. `self.created_at.elapsed()`. -/
def CacheEntry.age (e : CacheEntry T) (now : Nat) : Nat :=
  now - e.created_at

structure GenericCache (T : Type) where
  entries : List (String × CacheEntry T)
  ttl : Nat
  max_entries : Nat
deriving Repr, DecidableEq

/-- Model of `HashMap::contains_key`. -/
def containsKey (l : List (String × CacheEntry T)) (k : String) : Bool :=
  l.any (fun p => p.1 == k)

/-- Model of `HashMap::remove` (keys are distinct, so the filter drops one entry). -/
def removeKey (l : List (String × CacheEntry T)) (k : String) :
    List (String × CacheEntry T) :=
  l.filter (fun p => !(p.1 == k))

/-- Model of `HashMap::insert` — replaces the value when the key is present. -/
def insertEntry (k : String) (e : CacheEntry T)
    (l : List (String × CacheEntry T)) : List (String × CacheEntry T) :=
  if containsKey l k then
    l.map (fun p => if p.1 == k then (k, e) else p)
  else
    (k, e) :: l

/-- Model of `iter().min_by_key(|(_, entry)| entry.last_accessed)` — on ties
the first element of the iteration is returned, as in Rust. -/
def minEntry : List (String × CacheEntry T) → Option (String × CacheEntry T)
  | [] => none
  | p :: rest =>
    match minEntry rest with
    | none => some p
    | some q => if p.2.last_accessed ≤ q.2.last_accessed then some p else some q

/-- Model of `GenericCache::evict_lru`. -/
def evictLru (l : List (String × CacheEntry T)) : List (String × CacheEntry T) :=
  match minEntry l with
  | none => l
  | some p => removeKey l p.1

/-- Model of `GenericCache::get` at instant `now`: absent ↦ `none`; expired
(`age ≥ ttl`) ↦ remove and `none`; otherwise refresh `last_accessed`
(`CacheEntry::access`) and return a copy of the value. -/
def GenericCache.get (c : GenericCache T) (now : Nat) (key : String) :
    Option T × GenericCache T :=
  match List.lookup key c.entries with
  | none => (none, c)
  | some e =>
    if e.age now < c.ttl then
      (some e.data,
       { c with entries := c.entries.map (fun p =>
           if p.1 == key then (key, { p.2 with last_accessed := now }) else p) })
    else
      (none, { c with entries := removeKey c.entries key })

/-- Model of `GenericCache::set` at instant `now`: evict the LRU entry first when the
map is at capacity and the key is new, then insert a fresh entry. -/
def GenericCache.set (c : GenericCache T) (now : Nat) (key : String) (data : T) :
    GenericCache T :=
  let base :=
    if c.max_entries ≤ c.entries.length ∧ containsKey c.entries key = false then
      evictLru c.entries
    else
      c.entries
  { c with entries := insertEntry key (CacheEntry.new now data) base }

/-! ### src/error.rs -/

inductive DatadogError where
  | apiError (msg : String)
  | authError (msg : String)
  | dateParseError (msg : String)
  | networkError (msg : String)
  | jsonError (msg : String)
  | invalidInput (msg : String)
  | rateLimitError
  | timeoutError
deriving Repr, DecidableEq

/-- The `thiserror` `Display` messages of `DatadogError`. -/
def DatadogError.toMessage : DatadogError → String
  | .apiError msg => "API request failed: " ++ msg
  | .authError msg => "Authentication failed: " ++ msg
  | .dateParseError msg => "Invalid date format: " ++ msg
  | .networkError msg => "Network error: " ++ msg
  | .jsonError msg => "JSON parsing error: " ++ msg
  | .invalidInput msg => "Invalid input: " ++ msg
  | .rateLimitError => "Rate limit exceeded"
  | .timeoutError => "Timeout occurred"

/-- Model of `GenericCache::get_or_fetch`.  The producer (`fetch_fn`) is modelled by
the outcome it yields when invoked; the returned `Bool` records whether it
was invoked.  `tGet` is the instant of the initial probe, `tSet` the instant
of the store (the producer runs in between, outside the lock). -/
def GenericCache.getOrFetch (c : GenericCache T) (tGet tSet : Nat) (key : String)
    (producer : Except DatadogError T) :
    Except DatadogError T × GenericCache T × Bool :=
  match c.get tGet key with
  | (some cached, cHit) => (.ok cached, cHit, false)
  | (none, cMiss) =>
    match producer with
    | .ok data => (.ok data, cMiss.set tSet key data, true)
    | .error e => (.error e, cMiss, true)

/-! ### src/datadog/retry.rs -/

/-- Maximum number of retry attempts for failed API requests. -/
def MAX_RETRIES : Nat := 3

/-- Model of `calculate_backoff`, i.e. `Duration::from_secs(2_u64.pow(retry_count))`,
modelled as a number of seconds. -/
def calculate_backoff (retry_count : Nat) : Nat :=
  2 ^ retry_count

/-- Model of `should_retry`, i.e. `current_retry < MAX_RETRIES`. -/
def should_retry (current_retry : Nat) : Bool :=
  current_retry < MAX_RETRIES

/-! ### src/datadog/client.rs : the retry loop of `DatadogClient::request`

Each iteration sends the request and classifies the response; the classified
outcome of the attempt with counter value `retries` is given by the oracle
`outcome retries`.  The model returns the final result together with the
total number of attempts performed and the list of backoff delays (in
seconds) slept, in order. -/

def requestLoop (outcome : Nat → Except DatadogError α) (retries : Nat) :
    Except DatadogError α × Nat × List Nat :=
  match outcome retries with
  | .ok data => (.ok data, 1, [])
  | .error e =>
    if should_retry retries then
      let rest := requestLoop outcome (retries + 1)
      (rest.1, rest.2.1 + 1, calculate_backoff (retries + 1) :: rest.2.2)
    else
      (.error e, 1, [])
termination_by MAX_RETRIES - retries
decreasing_by
  simp only [should_retry, MAX_RETRIES, decide_eq_true_eq] at *
  omega

/-- Model of `DatadogClient::request`, starting with `retries = 0`. -/
def request (outcome : Nat → Except DatadogError α) :
    Except DatadogError α × Nat × List Nat :=
  requestLoop outcome 0

/-- The status classification of `DatadogClient::handle_response` for a
non-success HTTP status (`error_text` is the response body text). -/
def classifyStatus (status : Nat) (error_text : String) : DatadogError :=
  if status = 401 ∨ status = 403 then
    .authError error_text
  else if status = 429 then
    .rateLimitError
  else if status = 408 then
    .timeoutError
  else
    .apiError ("HTTP " ++ toString status ++ ": " ++ error_text)

/-- Model of the success test on an HTTP status. -/
def isSuccessStatus (status : Nat) : Bool :=
  200 ≤ status ∧ status < 300

/-- Model of `DatadogClient::handle_response`: on success parse the body (a parse
failure becomes `NetworkError`), otherwise classify the status. -/
def handleResponse (status : Nat) (bodyParse : Except String T)
    (error_text : String) : Except DatadogError T :=
  if isSuccessStatus status then
    match bodyParse with
    | .ok data => .ok data
    | .error e => .error (.networkError e)
  else
    .error (classifyStatus status error_text)

/-- Whether an attempt outcome is a success (the retry loop inspects only
this of an outcome). -/
def isOkOutcome : Except DatadogError α → Bool
  | .ok _ => true
  | .error _ => false

/-! ### src/server/protocol.rs : JSON values and envelopes -/

inductive Json where
  | null
  | bool (b : Bool)
  | num (n : Int)
  | str (s : String)
  | arr (items : List Json)
  | obj (fields : List (String × Json))
deriving Repr

/-- Model of `serde_json::Value::get` — `some` only on an object that has the key. -/
def Json.getOpt (j : Json) (k : String) : Option Json :=
  match j with
  | .obj fields => fields.lookup k
  | _ => none

/-- Model of `serde_json` indexing `value["key"]` — `Null` when the key is absent or
the value is not an object. -/
def Json.index (j : Json) (k : String) : Json :=
  match j.getOpt k with
  | some v => v
  | none => .null

/-- Model of `Value::as_str`. -/
def Json.asStr : Json → Option String
  | .str s => some s
  | _ => none

mutual

/-- Stand-in for `serde_json` serialization of a `Value` (the claims never
inspect the rendered text, only that it is a string payload). -/
def Json.render : Json → String
  | .null => "null"
  | .bool b => if b then "true" else "false"
  | .num n => toString n
  | .str s => "\x22" ++ s ++ "\x22"
  | .arr items => "[" ++ Json.renderList items ++ "]"
  | .obj fields => "\x7b" ++ Json.renderFields fields ++ "\x7d"

def Json.renderList : List Json → String
  | [] => ""
  | [j] => Json.render j
  | j :: rest => Json.render j ++ "," ++ Json.renderList rest

def Json.renderFields : List (String × Json) → String
  | [] => ""
  | [(k, j)] => "\x22" ++ k ++ "\x22:" ++ Json.render j
  | (k, j) :: rest => "\x22" ++ k ++ "\x22:" ++ Json.render j ++ "," ++ Json.renderFields rest

end

structure JsonRpcRequest where
  method : String
  params : Option Json
  id : Option Json
deriving Repr

structure JsonRpcError where
  code : Int
  message : String
  data : Option Json
deriving Repr

structure JsonRpcResponse where
  jsonrpc : String
  result : Option Json
  error : Option JsonRpcError
  id : Option Json
deriving Repr

/-- Model of `Server::create_error_response`. -/
def createErrorResponse (code : Int) (message : String) (id : Option Json) :
    JsonRpcResponse :=
  { jsonrpc := "2.0", result := none,
    error := some { code := code, message := message, data := none }, id := id }

/-- Model of `Server::create_success_response`. -/
def createSuccessResponse (result : Json) (id : Option Json) : JsonRpcResponse :=
  { jsonrpc := "2.0", result := some result, error := none, id := id }

/-! ### src/server/router.rs : `Server::handle_tool_call` -/

/-- The tool names matched by `handle_tool_call`. -/
def knownTools : List String :=
  ["datadog_metrics_query", "datadog_logs_search", "datadog_monitors_list",
   "datadog_monitors_get", "datadog_events_query", "datadog_hosts_list",
   "datadog_dashboards_list", "datadog_dashboards_get", "datadog_spans_search",
   "datadog_services_list", "datadog_logs_aggregate", "datadog_logs_timeseries",
   "datadog_rum_events_search"]

/-- The `result_content` wrapping of a handler outcome (router.rs lines
123-138): success becomes a text content envelope, a handler failure becomes
a text content envelope flagged `isError`. -/
def resultContent (result : Except DatadogError Json) : Json :=
  match result with
  | .ok data =>
    .obj [("content", .arr [.obj [("type", .str "text"),
                                  ("text", .str (Json.render data))]])]
  | .error e =>
    .obj [("content", .arr [.obj [("type", .str "text"),
                                  ("text", .str ("Error: " ++ e.toMessage))]]),
          ("isError", .bool true)]

/-- Model of `Server::handle_tool_call`.  The per-tool handlers (network code outside
the core) are abstracted by `handler`; the second component of the result
records which handler, if any, was invoked and with which arguments. -/
def handleToolCall (initialized : Bool) (req : JsonRpcRequest)
    (handler : String → Json → Except DatadogError Json) :
    JsonRpcResponse × Option (String × Json) :=
  if initialized = false then
    (createErrorResponse (-32002) "Server not initialized" req.id, none)
  else
    match req.params with
    | none => (createErrorResponse (-32602) "Missing params" req.id, none)
    | some params =>
      match (params.index "name").asStr with
      | none => (createErrorResponse (-32602) "Missing tool name" req.id, none)
      | some toolName =>
        let arguments := params.index "arguments"
        if toolName ∈ knownTools then
          (createSuccessResponse (resultContent (handler toolName arguments)) req.id,
           some (toolName, arguments))
        else
          (createErrorResponse (-32602) ("Unknown tool: " ++ toolName) req.id, none)

/-- Whether a result value carries the domain-error flag `isError: true`. -/
def Json.isErrorFlagged (j : Json) : Bool :=
  match j.getOpt "isError" with
  | some (.bool true) => true
  | _ => false

/-! ### src/server/protocol.rs : the parse-failure path of `Server::run`

When a line fails to parse as `JsonRpcRequest`, the loop re-parses it as
generic JSON (`recovered`, `none` when even that fails) solely to recover an
`id`; `diag` is the diagnostic text of the parser (`e.to_string()`).  The result
is the list of response lines written for that input line. -/
def parseFailureResponses (recovered : Option Json) (diag : String) :
    List JsonRpcResponse :=
  match recovered with
  | none => []
  | some recovered2 =>
    match recovered2.getOpt "id" with
    | none => []
    | some id =>
      [{ jsonrpc := "2.0", result := none,
         error := some { code := -32700, message := "Parse error",
                         data := some (.obj [("details", .str diag)]) },
         id := some id }]

/-! ### Retry loop: helper lemmas -/

theorem requestLoop_ok {outcome : Nat → Except DatadogError α} {r : Nat} {a : α}
    (h : outcome r = Except.ok a) : requestLoop outcome r = (.ok a, 1, []) := by
  rw [requestLoop.eq_def, h]

theorem requestLoop_error_stop {outcome : Nat → Except DatadogError α} {r : Nat}
    {e : DatadogError} (h : outcome r = Except.error e)
    (hs : should_retry r = false) :
    requestLoop outcome r = (.error e, 1, []) := by
  rw [requestLoop.eq_def, h, hs]
  simp

theorem requestLoop_error_retry {outcome : Nat → Except DatadogError α} {r : Nat}
    {e : DatadogError} (h : outcome r = Except.error e)
    (hs : should_retry r = true) :
    requestLoop outcome r =
      ((requestLoop outcome (r + 1)).1, (requestLoop outcome (r + 1)).2.1 + 1,
       calculate_backoff (r + 1) :: (requestLoop outcome (r + 1)).2.2) := by
  rw [requestLoop.eq_def, h, hs]
  simp

/-- When every attempt fails, the executor performs 4 attempts, sleeps
2, 4 and 8 seconds between them, and returns the outcome of the last
attempt. -/
theorem requestLoop_all_fail (outcome : Nat → Except DatadogError α)
    (h : ∀ i, ∃ e, outcome i = Except.error e) :
    request outcome = (outcome 3, 4, [2, 4, 8]) := by
  obtain ⟨e0, h0⟩ := h 0
  obtain ⟨e1, h1⟩ := h 1
  obtain ⟨e2, h2⟩ := h 2
  obtain ⟨e3, h3⟩ := h 3
  have s0 : should_retry 0 = true := by decide
  have s1 : should_retry 1 = true := by decide
  have s2 : should_retry 2 = true := by decide
  have s3 : should_retry 3 = false := by decide
  unfold request
  rw [requestLoop_error_retry h0 s0, requestLoop_error_retry h1 s1,
      requestLoop_error_retry h2 s2, requestLoop_error_stop h3 s3, h3]
  simp [calculate_backoff]

/-- The attempt count and backoff schedule of the retry loop depend only on
the success/failure pattern of the attempts, never on the error values. -/
theorem requestLoop_pattern (f : Nat → Except DatadogError α)
    (g : Nat → Except DatadogError β)
    (h : ∀ i, isOkOutcome (f i) = isOkOutcome (g i)) :
    ∀ n r, MAX_RETRIES - r ≤ n → (requestLoop f r).2 = (requestLoop g r).2 := by
  intro n
  induction n with
  | zero =>
    intro r hr
    have hsr : should_retry r = false := by
      simp only [should_retry, MAX_RETRIES, decide_eq_false_iff_not] at *
      omega
    cases hf : f r with
    | ok a =>
      cases hg : g r with
      | ok b => rw [requestLoop_ok hf, requestLoop_ok hg]
      | error e2 =>
        have hir := h r
        rw [hf, hg] at hir
        simp [isOkOutcome] at hir
    | error e =>
      cases hg : g r with
      | ok b =>
        have hir := h r
        rw [hf, hg] at hir
        simp [isOkOutcome] at hir
      | error e2 =>
        rw [requestLoop_error_stop hf hsr, requestLoop_error_stop hg hsr]
  | succ n ih =>
    intro r hr
    cases hf : f r with
    | ok a =>
      cases hg : g r with
      | ok b => rw [requestLoop_ok hf, requestLoop_ok hg]
      | error e2 =>
        have hir := h r
        rw [hf, hg] at hir
        simp [isOkOutcome] at hir
    | error e =>
      cases hg : g r with
      | ok b =>
        have hir := h r
        rw [hf, hg] at hir
        simp [isOkOutcome] at hir
      | error e2 =>
        cases hsr : should_retry r with
        | false => rw [requestLoop_error_stop hf hsr, requestLoop_error_stop hg hsr]
        | true =>
          rw [requestLoop_error_retry hf hsr, requestLoop_error_retry hg hsr]
          have hrec : (requestLoop f (r + 1)).2 = (requestLoop g (r + 1)).2 := by
            apply ih
            simp only [should_retry, MAX_RETRIES, decide_eq_true_eq] at hsr
            omega
          rw [hrec]

/-! ### Claim theorems: retry -/

/-- C2: `should_retry n` is true exactly when `n < 3`, and an operation that
fails on every attempt makes the executor perform exactly 4 total attempts
(the initial attempt plus 3 retries), returning the failure classified on
the last attempt. -/
theorem retry_limit_and_four_attempts :
    (∀ n, should_retry n = true ↔ n < 3) ∧
    (∀ (α : Type) (outcome : Nat → Except DatadogError α),
      (∀ i, ∃ e, outcome i = Except.error e) →
      (request outcome).2.1 = 4 ∧ (request outcome).1 = outcome 3) := by
  constructor
  · intro n
    simp [should_retry, MAX_RETRIES]
  · intro α outcome h
    rw [requestLoop_all_fail outcome h]
    exact ⟨rfl, rfl⟩

/-- Witness for C2 at a concrete always-failing outcome. -/
theorem retry_limit_and_four_attempts_witness :
    (request (fun _ =>
      (Except.error DatadogError.rateLimitError : Except DatadogError Nat))).2.1 = 4 :=
  (retry_limit_and_four_attempts.2 Nat
    (fun _ => Except.error DatadogError.rateLimitError)
    (fun _ => ⟨DatadogError.rateLimitError, rfl⟩)).1

/-- C5: `calculate_backoff n` is `2 ^ n` seconds (1s, 2s, 4s, 8s for
`n = 0..3`), and the executor — which increments the counter before
sleeping — sleeps `calculate_backoff 1`, `calculate_backoff 2`,
`calculate_backoff 3`, i.e. 2s, 4s, 8s, before retries 1, 2 and 3. -/
theorem backoff_values_and_schedule :
    (∀ n, calculate_backoff n = 2 ^ n) ∧
    (calculate_backoff 0 = 1 ∧ calculate_backoff 1 = 2 ∧
     calculate_backoff 2 = 4 ∧ calculate_backoff 3 = 8) ∧
    (∀ (α : Type) (outcome : Nat → Except DatadogError α),
      (∀ i, ∃ e, outcome i = Except.error e) →
      (request outcome).2.2 =
        [calculate_backoff 1, calculate_backoff 2, calculate_backoff 3] ∧
      (request outcome).2.2 = [2, 4, 8]) := by
  refine ⟨fun n => rfl, ⟨rfl, rfl, rfl, rfl⟩, ?_⟩
  intro α outcome h
  rw [requestLoop_all_fail outcome h]
  exact ⟨rfl, rfl⟩

/-- Witness for C5 at a concrete always-failing outcome. -/
theorem backoff_values_and_schedule_witness :
    (request (fun _ =>
      (Except.error DatadogError.timeoutError : Except DatadogError Nat))).2.2 = [2, 4, 8] :=
  ((backoff_values_and_schedule.2.2 Nat
    (fun _ => Except.error DatadogError.timeoutError)
    (fun _ => ⟨DatadogError.timeoutError, rfl⟩))).2

/-- C6: the retry decision depends only on the number of attempts made so
far — outcomes with the same success/failure pattern produce the same
attempt count and backoff schedule regardless of the failure class — and
Auth failures (the classification of 401/403 responses) are retried to the
full 4 attempts like any other failure. -/
theorem retry_ignores_failure_class :
    (∀ (α β : Type) (f : Nat → Except DatadogError α) (g : Nat → Except DatadogError β),
      (∀ i, isOkOutcome (f i) = isOkOutcome (g i)) →
      (request f).2.1 = (request g).2.1 ∧ (request f).2.2 = (request g).2.2) ∧
    (∀ t, classifyStatus 401 t = DatadogError.authError t ∧
          classifyStatus 403 t = DatadogError.authError t) ∧
    (∀ s, (request (fun _ =>
      (Except.error (DatadogError.authError s) : Except DatadogError Unit))).2.1 = 4) := by
  refine ⟨?_, ?_, ?_⟩
  · intro α β f g h
    have hp := requestLoop_pattern f g h MAX_RETRIES 0 (by omega)
    unfold request
    exact ⟨congrArg Prod.fst hp, congrArg Prod.snd hp⟩
  · intro t
    constructor
    · simp [classifyStatus]
    · simp [classifyStatus]
  · intro s
    rw [requestLoop_all_fail (fun _ => Except.error (DatadogError.authError s))
      (fun _ => ⟨DatadogError.authError s, rfl⟩)]

/-- Witness for C6: an all-auth-failure run is retried to 4 attempts, and
its attempt count agrees with an all-rate-limit run. -/
theorem retry_ignores_failure_class_witness :
    (request (fun _ =>
      (Except.error (DatadogError.authError "forbidden") : Except DatadogError Unit))).2.1 = 4 ∧
    (request (fun _ =>
      (Except.error (DatadogError.authError "x") : Except DatadogError Unit))).2.1 =
      (request (fun _ =>
      (Except.error DatadogError.rateLimitError : Except DatadogError Bool))).2.1 :=
  ⟨retry_ignores_failure_class.2.2 "forbidden",
   (retry_ignores_failure_class.1 Unit Bool
     (fun _ => Except.error (DatadogError.authError "x"))
     (fun _ => Except.error DatadogError.rateLimitError)
     (fun _ => rfl)).1⟩

/-! ### Protocol engine: helper lemmas -/

theorem resultContent_ok_not_flagged (d : Json) :
    (resultContent (Except.ok d)).isErrorFlagged = false := rfl

theorem resultContent_error_flagged (e : DatadogError) :
    (resultContent (Except.error e)).isErrorFlagged = true := rfl

/-! ### Claim theorems: protocol engine -/

/-- C7: every tool call received while the session is not initialized is
answered with the fixed error code `-32002` ("Server not initialized")
carrying the id of the request, and no tool handler is invoked. -/
theorem uninitialized_tool_call_rejected (req : JsonRpcRequest)
    (handler : String → Json → Except DatadogError Json) :
    handleToolCall false req handler =
      (createErrorResponse (-32002) "Server not initialized" req.id, none) ∧
    (handleToolCall false req handler).1.error =
      some { code := -32002, message := "Server not initialized", data := none } ∧
    (handleToolCall false req handler).1.result = none ∧
    (handleToolCall false req handler).1.id = req.id ∧
    (handleToolCall false req handler).2 = none := by
  exact ⟨rfl, rfl, rfl, rfl, rfl⟩

/-- C10: with the session initialized, a missing or non-string `name` and
an unknown tool name each yield the protocol-level error `-32602` (with
message "Missing tool name" / "Unknown tool: <name>") and no success
envelope, and a result carrying `isError: true` arises only from a failure
returned by an actually invoked tool handler. -/
theorem tool_call_name_errors_and_error_flag :
    (∀ (req : JsonRpcRequest) handler p, req.params = some p →
      (p.index "name").asStr = none →
      handleToolCall true req handler =
        (createErrorResponse (-32602) "Missing tool name" req.id, none)) ∧
    (∀ (req : JsonRpcRequest) handler p s, req.params = some p →
      (p.index "name").asStr = some s → s ∉ knownTools →
      handleToolCall true req handler =
        (createErrorResponse (-32602) ("Unknown tool: " ++ s) req.id, none)) ∧
    (∀ (req : JsonRpcRequest) handler r,
      (handleToolCall true req handler).1.result = some r →
      r.isErrorFlagged = true →
      ∃ nm args e, (handleToolCall true req handler).2 = some (nm, args) ∧
        handler nm args = Except.error e ∧
        r = resultContent (Except.error e)) := by
  refine ⟨?_, ?_, ?_⟩
  · intro req handler p hp hname
    simp [handleToolCall, hp, hname]
  · intro req handler p s hp hname hmem
    simp [handleToolCall, hp, hname, hmem]
  · intro req handler r hres hflag
    cases hp : req.params with
    | none =>
      simp [handleToolCall, hp, createErrorResponse] at hres
    | some p =>
      cases hname : (p.index "name").asStr with
      | none =>
        simp [handleToolCall, hp, hname, createErrorResponse] at hres
      | some toolName =>
        by_cases hmem : toolName ∈ knownTools
        · cases hh : handler toolName (p.index "arguments") with
          | ok d =>
            simp [handleToolCall, hp, hname, hmem, hh, createSuccessResponse] at hres
            rw [← hres, resultContent_ok_not_flagged] at hflag
            exact absurd hflag (by simp)
          | error e =>
            refine ⟨toolName, p.index "arguments", e, ?_, hh, ?_⟩
            · simp [handleToolCall, hp, hname, hmem]
            · simp [handleToolCall, hp, hname, hmem, hh, createSuccessResponse] at hres
              exact hres.symm
        · simp [handleToolCall, hp, hname, hmem, createErrorResponse] at hres

/-- Witness for C10: a request with no `name` string, one naming an unknown
tool, and an invoked handler that fails. -/
theorem tool_call_name_errors_and_error_flag_witness :
    (handleToolCall true
        { method := "tools/call", params := some (Json.obj []), id := some (Json.num 1) }
        (fun _ _ => Except.ok Json.null) =
      (createErrorResponse (-32602) "Missing tool name" (some (Json.num 1)), none)) ∧
    (handleToolCall true
        { method := "tools/call",
          params := some (Json.obj [("name", Json.str "bogus")]),
          id := some (Json.num 2) }
        (fun _ _ => Except.ok Json.null) =
      (createErrorResponse (-32602) ("Unknown tool: " ++ "bogus") (some (Json.num 2)), none)) ∧
    (∃ nm args e,
      (handleToolCall true
        { method := "tools/call",
          params := some (Json.obj [("name", Json.str "datadog_metrics_query")]),
          id := some (Json.num 3) }
        (fun _ _ => Except.error DatadogError.rateLimitError)).2 = some (nm, args) ∧
      (fun (_ : String) (_ : Json) =>
        (Except.error DatadogError.rateLimitError : Except DatadogError Json)) nm args =
        Except.error e) := by
  refine ⟨?_, ?_, ?_⟩
  · exact tool_call_name_errors_and_error_flag.1
      { method := "tools/call", params := some (Json.obj []), id := some (Json.num 1) }
      (fun _ _ => Except.ok Json.null) (Json.obj []) rfl rfl
  · exact tool_call_name_errors_and_error_flag.2.1
      { method := "tools/call",
        params := some (Json.obj [("name", Json.str "bogus")]),
        id := some (Json.num 2) }
      (fun _ _ => Except.ok Json.null) (Json.obj [("name", Json.str "bogus")]) "bogus"
      rfl rfl (by decide)
  · obtain ⟨nm, args, e, h1, h2, h3⟩ :=
      tool_call_name_errors_and_error_flag.2.2
        { method := "tools/call",
          params := some (Json.obj [("name", Json.str "datadog_metrics_query")]),
          id := some (Json.num 3) }
        (fun _ _ => Except.error DatadogError.rateLimitError)
        (resultContent (Except.error DatadogError.rateLimitError)) rfl rfl
    exact ⟨nm, args, e, h1, h2⟩

/-- C8: for an input line that fails to parse as the request envelope, the
engine writes nothing when no `id` is recoverable from a generic-JSON
re-parse, and writes exactly one `-32700` "Parse error" envelope carrying
the recovered id and the diagnostic text of the parser when an `id` is
recoverable. -/
theorem parse_failure_output :
    (∀ diag, parseFailureResponses none diag = []) ∧
    (∀ (j : Json) diag, j.getOpt "id" = none → parseFailureResponses (some j) diag = []) ∧
    (∀ (j : Json) i diag, j.getOpt "id" = some i →
      parseFailureResponses (some j) diag =
        [{ jsonrpc := "2.0", result := none,
           error := some { code := -32700, message := "Parse error",
                           data := some (.obj [("details", .str diag)]) },
           id := some i }] ∧
      (parseFailureResponses (some j) diag).length = 1) := by
  refine ⟨fun diag => rfl, ?_, ?_⟩
  · intro j diag h
    simp [parseFailureResponses, h]
  · intro j i diag h
    refine ⟨?_, ?_⟩ <;> simp [parseFailureResponses, h]

/-- Witness for C8: the example from the spec, a malformed line whose generic JSON
re-parse yields `id = 7`. -/
theorem parse_failure_output_witness :
    parseFailureResponses (some (Json.obj [("id", Json.num 7)])) "expected value" =
      [{ jsonrpc := "2.0", result := none,
         error := some { code := -32700, message := "Parse error",
                         data := some (.obj [("details", .str "expected value")]) },
         id := some (Json.num 7) }] :=
  (parse_failure_output.2.2 (Json.obj [("id", Json.num 7)]) (Json.num 7)
    "expected value" rfl).1

/-! ### Cache: helper lemmas -/

theorem lookup_cons_self {k : String} {b : CacheEntry T}
    {t : List (String × CacheEntry T)} :
    List.lookup k ((k, b) :: t) = some b := by
  simp [List.lookup]

theorem lookup_cons_ne {a k : String} (h : k ≠ a) {b : CacheEntry T}
    {t : List (String × CacheEntry T)} :
    List.lookup k ((a, b) :: t) = List.lookup k t := by
  have hb : (k == a) = false := beq_eq_false_iff_ne.mpr h
  simp [List.lookup, hb]

theorem containsKey_of_mem {l : List (String × CacheEntry T)}
    {p : String × CacheEntry T} (h : p ∈ l) : containsKey l p.1 = true := by
  simp only [containsKey, List.any_eq_true]
  exact ⟨p, h, by simp⟩

theorem lookup_replaceMap {l : List (String × CacheEntry T)} {k : String}
    {e : CacheEntry T} (h : containsKey l k = true) :
    List.lookup k (l.map (fun p => if p.1 == k then (k, e) else p)) = some e := by
  induction l with
  | nil => simp [containsKey] at h
  | cons hd tl ih =>
    obtain ⟨a, b⟩ := hd
    by_cases hak : a = k
    · subst hak
      simp only [List.map_cons]
      rw [if_pos (by simp)]
      exact lookup_cons_self
    · have hbeq : (a == k) = false := beq_eq_false_iff_ne.mpr hak
      simp only [List.map_cons]
      rw [if_neg (by simp [hbeq])]
      rw [lookup_cons_ne (Ne.symm hak)]
      apply ih
      simpa [containsKey, hbeq] using h

theorem lookup_accessMap {l : List (String × CacheEntry T)} {key : String}
    {now : Nat} {e : CacheEntry T} (h : List.lookup key l = some e) :
    List.lookup key (l.map (fun p =>
      if p.1 == key then (key, { p.2 with last_accessed := now }) else p)) =
      some { e with last_accessed := now } := by
  induction l with
  | nil => simp at h
  | cons hd tl ih =>
    obtain ⟨a, b⟩ := hd
    by_cases hak : key = a
    · subst hak
      rw [lookup_cons_self] at h
      injection h with h
      subst h
      simp only [List.map_cons]
      rw [if_pos (by simp)]
      exact lookup_cons_self
    · have hbeq : (a == key) = false := beq_eq_false_iff_ne.mpr (Ne.symm hak)
      rw [lookup_cons_ne hak] at h
      simp only [List.map_cons]
      rw [if_neg (by simp [hbeq])]
      rw [lookup_cons_ne hak]
      exact ih h

theorem lookup_removeKey_self (l : List (String × CacheEntry T)) (k : String) :
    List.lookup k (removeKey l k) = none := by
  induction l with
  | nil => rfl
  | cons hd tl ih =>
    obtain ⟨a, b⟩ := hd
    by_cases hak : a = k
    · subst hak
      simpa [removeKey] using ih
    · have hbeq : (a == k) = false := beq_eq_false_iff_ne.mpr hak
      simp only [removeKey, List.filter_cons, hbeq, Bool.not_false, if_true]
      rw [lookup_cons_ne (Ne.symm hak)]
      exact ih

theorem containsKey_removeKey {l : List (String × CacheEntry T)} {k : String}
    (h : containsKey l k = false) (j : String) :
    containsKey (removeKey l j) k = false := by
  simp only [containsKey, List.any_eq_false] at h ⊢
  intro p hp
  exact h p (List.mem_of_mem_filter hp)

theorem length_removeKey {l : List (String × CacheEntry T)}
    (hnd : (l.map Prod.fst).Nodup) {k : String} (hk : containsKey l k = true) :
    (removeKey l k).length + 1 = l.length := by
  induction l with
  | nil => simp [containsKey] at hk
  | cons hd tl ih =>
    obtain ⟨a, b⟩ := hd
    simp only [List.map_cons, List.nodup_cons] at hnd
    obtain ⟨hhd, htl⟩ := hnd
    by_cases hak : a = k
    · subst hak
      have hkeep : removeKey tl a = tl := by
        apply List.filter_eq_self.mpr
        intro q hq
        have hqa : q.1 ≠ a := by
          intro hqk
          exact hhd (hqk ▸ List.mem_map.mpr ⟨q, hq, rfl⟩)
        simp [beq_eq_false_iff_ne.mpr hqa]
      simp only [removeKey, List.filter_cons] at *
      rw [if_neg (by simp)]
      rw [hkeep]
      simp
    · have hbeq : (a == k) = false := beq_eq_false_iff_ne.mpr hak
      have hktl : containsKey tl k = true := by
        simpa [containsKey, hbeq] using hk
      simp only [removeKey, List.filter_cons, hbeq, Bool.not_false, if_true]
      simp only [List.length_cons]
      rw [← ih htl hktl]
      rfl

theorem length_insertEntry_contains {l : List (String × CacheEntry T)} {k : String}
    (h : containsKey l k = true) (e : CacheEntry T) :
    (insertEntry k e l).length = l.length := by
  simp [insertEntry, h]

theorem length_insertEntry_new {l : List (String × CacheEntry T)} {k : String}
    (h : containsKey l k = false) (e : CacheEntry T) :
    (insertEntry k e l).length = l.length + 1 := by
  simp [insertEntry, h]

theorem lookup_insertEntry (k : String) (e : CacheEntry T)
    (l : List (String × CacheEntry T)) :
    List.lookup k (insertEntry k e l) = some e := by
  unfold insertEntry
  cases h : containsKey l k with
  | true =>
    rw [if_pos (by simp [h])]
    exact lookup_replaceMap h
  | false =>
    rw [if_neg (by simp [h])]
    exact lookup_cons_self

/-- After any `set` the key maps to a fresh entry whose two timestamps are
the instant of the `set` — insertion always succeeds. -/
theorem lookup_set_self (c : GenericCache T) (now : Nat) (key : String) (v : T) :
    List.lookup key (c.set now key v).entries = some (CacheEntry.new now v) := by
  simp only [GenericCache.set]
  exact lookup_insertEntry key (CacheEntry.new now v) _

theorem minEntry_isSome {l : List (String × CacheEntry T)} (h : l ≠ []) :
    ∃ p, minEntry l = some p := by
  cases l with
  | nil => exact absurd rfl h
  | cons hd tl =>
    cases hm : minEntry tl with
    | none => exact ⟨hd, by simp only [minEntry, hm]⟩
    | some q =>
      by_cases hle : hd.2.last_accessed ≤ q.2.last_accessed
      · refine ⟨hd, ?_⟩
        simp only [minEntry, hm]
        rw [if_pos hle]
      · refine ⟨q, ?_⟩
        simp only [minEntry, hm]
        rw [if_neg hle]

theorem minEntry_mem {l : List (String × CacheEntry T)} {p : String × CacheEntry T}
    (h : minEntry l = some p) : p ∈ l := by
  induction l generalizing p with
  | nil => simp [minEntry] at h
  | cons hd tl ih =>
    simp only [minEntry] at h
    cases hm : minEntry tl with
    | none =>
      simp only [hm] at h
      injection h with h
      exact h ▸ List.mem_cons_self hd tl
    | some q =>
      simp only [hm] at h
      by_cases hle : hd.2.last_accessed ≤ q.2.last_accessed
      · rw [if_pos hle] at h
        injection h with h
        exact h ▸ List.mem_cons_self hd tl
      · rw [if_neg hle] at h
        injection h with h
        exact List.mem_cons_of_mem hd (h ▸ ih hm)

theorem minEntry_le {l : List (String × CacheEntry T)} {p : String × CacheEntry T}
    (h : minEntry l = some p) :
    ∀ q ∈ l, p.2.last_accessed ≤ q.2.last_accessed := by
  induction l generalizing p with
  | nil => simp [minEntry] at h
  | cons hd tl ih =>
    simp only [minEntry] at h
    intro q hq
    cases hm : minEntry tl with
    | none =>
      simp only [hm] at h
      injection h with h
      subst h
      rcases List.mem_cons.mp hq with rfl | hmem
      · exact le_refl _
      · exfalso
        obtain ⟨r, hr⟩ := minEntry_isSome (List.ne_nil_of_mem hmem)
        rw [hr] at hm
        exact Option.noConfusion hm
    | some r =>
      simp only [hm] at h
      by_cases hle : hd.2.last_accessed ≤ r.2.last_accessed
      · rw [if_pos hle] at h
        injection h with h
        subst h
        rcases List.mem_cons.mp hq with rfl | hmem
        · exact le_refl _
        · exact le_trans hle (ih hm q hmem)
      · rw [if_neg hle] at h
        injection h with h
        subst h
        rcases List.mem_cons.mp hq with rfl | hmem
        · omega
        · exact ih hm q hmem

/-! ### Claim theorems: cache -/

/-- C1 (amended): for a cache with capacity `max_entries ≥ 1` currently
holding at most `max_entries` entries (which holds for every cache
constructed empty and mutated by `set`), after every `set` the map holds at
most `max_entries` entries, the insertion itself always succeeds, and when
`set` is called with a new key while the map is at capacity, the removed
entry is one whose last-access timestamp is minimal among the pre-insertion
entries.  (At capacity 0 the size bound fails — see the counterexample.) -/
theorem set_capacity_and_lru_eviction (c : GenericCache T) (now : Nat)
    (k : String) (v : T)
    (hnd : (c.entries.map Prod.fst).Nodup)
    (hmax : 1 ≤ c.max_entries)
    (hlen : c.entries.length ≤ c.max_entries) :
    (c.set now k v).entries.length ≤ c.max_entries ∧
    List.lookup k (c.set now k v).entries = some (CacheEntry.new now v) ∧
    (containsKey c.entries k = false → c.max_entries ≤ c.entries.length →
      ∃ p ∈ c.entries,
        (∀ q ∈ c.entries, p.2.last_accessed ≤ q.2.last_accessed) ∧
        (c.set now k v).entries =
          (k, CacheEntry.new now v) :: removeKey c.entries p.1) := by
  cases hck : containsKey c.entries k with
  | true =>
    have hcond : ¬ (c.max_entries ≤ c.entries.length ∧
        containsKey c.entries k = false) := by simp [hck]
    have hent : (c.set now k v).entries =
        insertEntry k (CacheEntry.new now v) c.entries := by
      simp only [GenericCache.set, if_neg hcond]
    refine ⟨?_, lookup_set_self c now k v, ?_⟩
    · rw [hent, length_insertEntry_contains hck]
      exact hlen
    · intro hck2
      exact absurd hck2 (by simp)
  | false =>
    by_cases hfull : c.max_entries ≤ c.entries.length
    · have hne : c.entries ≠ [] := by
        intro h0
        rw [h0] at hfull
        simp at hfull
        omega
      obtain ⟨p, hp⟩ := minEntry_isSome hne
      have hmem := minEntry_mem hp
      have hcond : c.max_entries ≤ c.entries.length ∧
          containsKey c.entries k = false := ⟨hfull, hck⟩
      have hck2 : containsKey (removeKey c.entries p.1) k = false :=
        containsKey_removeKey hck p.1
      have hcons : (c.set now k v).entries =
          (k, CacheEntry.new now v) :: removeKey c.entries p.1 := by
        simp only [GenericCache.set, if_pos hcond, evictLru, hp]
        simp [insertEntry, hck2]
      refine ⟨?_, lookup_set_self c now k v, ?_⟩
      · rw [hcons]
        simp only [List.length_cons]
        rw [length_removeKey hnd (containsKey_of_mem hmem)]
        exact hlen
      · intro _ _
        exact ⟨p, hmem, minEntry_le hp, hcons⟩
    · have hcond : ¬ (c.max_entries ≤ c.entries.length ∧
          containsKey c.entries k = false) := by
        intro ⟨h1, _⟩
        exact hfull h1
      have hent : (c.set now k v).entries =
          insertEntry k (CacheEntry.new now v) c.entries := by
        simp only [GenericCache.set, if_neg hcond]
      refine ⟨?_, lookup_set_self c now k v, ?_⟩
      · rw [hent, length_insertEntry_new hck]
        omega
      · intro _ hfull2
        exact absurd hfull2 hfull

/-- Counterexample to C1 as stated: with capacity `max_entries = 0`, a
`set` into the empty cache leaves one entry, exceeding the capacity —
`evict_lru` cannot make room in an empty map and the insertion proceeds. -/
theorem set_capacity_zero_counterexample :
    ¬ (((⟨[], 5, 0⟩ : GenericCache Nat).set 0 "a" 7).entries.length ≤
        (⟨[], 5, 0⟩ : GenericCache Nat).max_entries) := by
  decide

/-- Witness for C1 (amended) at a concrete full one-slot cache. -/
theorem set_capacity_and_lru_eviction_witness :
    ((⟨[("old", ⟨1, 0, 0⟩)], 5, 1⟩ : GenericCache Nat).set 10 "new" 2).entries.length ≤
      (⟨[("old", ⟨(1 : Nat), 0, 0⟩)], 5, 1⟩ : GenericCache Nat).max_entries :=
  (set_capacity_and_lru_eviction
    (⟨[("old", ⟨1, 0, 0⟩)], 5, 1⟩ : GenericCache Nat) 10 "new" 2
    (by decide) (by decide) (by decide)).1

/-- C4: `get` returns nothing for an absent key; for a present entry whose
age is at least `ttl` it removes the entry and returns nothing; otherwise
it refreshes the last-access timestamp and returns the stored value.  In
particular a value inserted at `t0` into a cache with `ttl = d` and queried
at any time at or after `t0 + d` is not returned. -/
theorem get_expiry_semantics (c : GenericCache T) (now : Nat) (key : String) :
    (List.lookup key c.entries = none → c.get now key = (none, c)) ∧
    (∀ e, List.lookup key c.entries = some e → c.ttl ≤ e.age now →
      (c.get now key).1 = none ∧
      List.lookup key (c.get now key).2.entries = none) ∧
    (∀ e, List.lookup key c.entries = some e → e.age now < c.ttl →
      (c.get now key).1 = some e.data ∧
      List.lookup key (c.get now key).2.entries =
        some { e with last_accessed := now }) ∧
    (∀ (c0 : GenericCache T) (t0 t : Nat) (v : T), t0 + c0.ttl ≤ t →
      ((c0.set t0 key v).get t key).1 = none) := by
  refine ⟨?_, ?_, ?_, ?_⟩
  · intro h
    simp [GenericCache.get, h]
  · intro e h hage
    have hnlt : ¬ e.age now < c.ttl := by omega
    constructor
    · simp [GenericCache.get, h, hnlt]
    · simp only [GenericCache.get, h, if_neg hnlt]
      exact lookup_removeKey_self c.entries key
  · intro e h hage
    constructor
    · simp [GenericCache.get, h, hage]
    · simp only [GenericCache.get, h, if_pos hage]
      exact lookup_accessMap h
  · intro c0 t0 t v hle
    have hlk : List.lookup key (c0.set t0 key v).entries =
        some (CacheEntry.new t0 v) := lookup_set_self c0 t0 key v
    have httl : (c0.set t0 key v).ttl = c0.ttl := rfl
    have hnlt : ¬ (CacheEntry.new t0 v).age t < (c0.set t0 key v).ttl := by
      simp only [CacheEntry.age, CacheEntry.new, httl]
      omega
    simp [GenericCache.get, hlk, hnlt]

/-- Witness for C4: a fresh entry is returned before its TTL, and an entry
inserted at time 0 with `ttl = 10` is no longer returned at time 10. -/
theorem get_expiry_semantics_witness :
    (((⟨[("k", ⟨42, 0, 0⟩)], 10, 100⟩ : GenericCache Nat).get 5 "k").1 = some 42) ∧
    ((((⟨[], 10, 100⟩ : GenericCache Nat).set 0 "k" 42).get 10 "k").1 = none) := by
  constructor
  · exact ((get_expiry_semantics
      (⟨[("k", ⟨42, 0, 0⟩)], 10, 100⟩ : GenericCache Nat) 5 "k").2.2.1
      ⟨42, 0, 0⟩ rfl (by decide)).1
  · exact (get_expiry_semantics
      (⟨[], 10, 100⟩ : GenericCache Nat) 0 "k").2.2.2
      (⟨[], 10, 100⟩ : GenericCache Nat) 0 10 42 (by decide)

/-- C9: `set` on a key already present replaces the stored value without
evicting anything — the size of the map is unchanged and every other entry is
untouched — and installs a fresh entry whose creation and last-access
timestamps are the time of the `set`, restarting its TTL. -/
theorem set_existing_key_replaces (c : GenericCache T) (now : Nat)
    (k : String) (v : T) (h : containsKey c.entries k = true) :
    (c.set now k v).entries.length = c.entries.length ∧
    List.lookup k (c.set now k v).entries = some (CacheEntry.new now v) ∧
    (CacheEntry.new now v).created_at = now ∧
    (CacheEntry.new now v).last_accessed = now ∧
    (∀ p ∈ c.entries, p.1 ≠ k → p ∈ (c.set now k v).entries) ∧
    (∀ p ∈ (c.set now k v).entries, p.1 ≠ k → p ∈ c.entries) := by
  have hcond : ¬ (c.max_entries ≤ c.entries.length ∧
      containsKey c.entries k = false) := by simp [h]
  have hent : (c.set now k v).entries =
      insertEntry k (CacheEntry.new now v) c.entries := by
    simp only [GenericCache.set, if_neg hcond]
  have hmap : insertEntry k (CacheEntry.new now v) c.entries =
      c.entries.map (fun p => if p.1 == k then (k, CacheEntry.new now v) else p) := by
    simp [insertEntry, h]
  refine ⟨?_, lookup_set_self c now k v, rfl, rfl, ?_, ?_⟩
  · rw [hent, length_insertEntry_contains h]
  · intro p hp hpk
    rw [hent, hmap]
    refine List.mem_map.mpr ⟨p, hp, ?_⟩
    rw [if_neg (by simp [hpk])]
  · intro p hp hpk
    rw [hent, hmap] at hp
    obtain ⟨q, hq, hfq⟩ := List.mem_map.mp hp
    by_cases hqk : q.1 = k
    · rw [if_pos (by simp [hqk])] at hfq
      rw [← hfq] at hpk
      simp at hpk
    · rw [if_neg (by simp [hqk])] at hfq
      exact hfq ▸ hq

/-- Witness for C9 at a concrete one-entry cache. -/
theorem set_existing_key_replaces_witness :
    ((⟨[("a", ⟨1, 2, 3⟩)], 10, 100⟩ : GenericCache Nat).set 7 "a" 9).entries.length =
      (⟨[("a", ⟨(1 : Nat), 2, 3⟩)], 10, 100⟩ : GenericCache Nat).entries.length ∧
    List.lookup "a"
      ((⟨[("a", ⟨1, 2, 3⟩)], 10, 100⟩ : GenericCache Nat).set 7 "a" 9).entries =
      some (CacheEntry.new 7 9) := by
  have h := set_existing_key_replaces
    (⟨[("a", ⟨1, 2, 3⟩)], 10, 100⟩ : GenericCache Nat) 7 "a" 9 (by decide)
  exact ⟨h.1, h.2.1⟩

/-- C3 (amended): on a cache hit `get_or_fetch` returns the cached value
and never invokes the producer; on a miss it invokes the producer, and on
producer success it stores the produced value under the key before
returning it; on producer failure nothing is stored and the failure is
returned — the cache is left exactly as the initial `get` left it, which
may itself have removed an expired entry under the key (so the contents are
not always literally unchanged; see the counterexample). -/
theorem get_or_fetch_semantics (c : GenericCache T) (tGet tSet : Nat)
    (key : String) (producer : Except DatadogError T) :
    (∀ v cHit, c.get tGet key = (some v, cHit) →
      c.getOrFetch tGet tSet key producer = (.ok v, cHit, false)) ∧
    (∀ cMiss, c.get tGet key = (none, cMiss) →
      (∀ d, producer = .ok d →
        c.getOrFetch tGet tSet key producer = (.ok d, cMiss.set tSet key d, true) ∧
        List.lookup key (cMiss.set tSet key d).entries =
          some (CacheEntry.new tSet d)) ∧
      (∀ e, producer = .error e →
        c.getOrFetch tGet tSet key producer = (.error e, cMiss, true))) := by
  refine ⟨?_, ?_⟩
  · intro v cHit hget
    simp [GenericCache.getOrFetch, hget]
  · intro cMiss hget
    refine ⟨?_, ?_⟩
    · intro d hprod
      subst hprod
      exact ⟨by simp [GenericCache.getOrFetch, hget],
             lookup_set_self cMiss tSet key d⟩
    · intro e hprod
      subst hprod
      simp [GenericCache.getOrFetch, hget]

/-- Counterexample to C3 as stated: the queried key holds an expired entry
and the producer fails — the failure propagates and nothing is stored, but
the cache contents are nevertheless changed, because the initial `get`
removed the expired entry. -/
theorem get_or_fetch_failure_mutates_counterexample :
    ((⟨[("k", ⟨7, 0, 0⟩)], 1, 100⟩ : GenericCache Nat).getOrFetch 5 5 "k"
        (Except.error DatadogError.rateLimitError)).2.1.entries ≠
      [("k", ⟨(7 : Nat), 0, 0⟩)] := by
  decide

/-- Witness for C3 (amended): a concrete hit, and a concrete miss with a
failing producer. -/
theorem get_or_fetch_semantics_witness :
    ((⟨[("k", ⟨42, 0, 0⟩)], 10, 100⟩ : GenericCache Nat).getOrFetch 5 6 "k"
        (Except.ok 99)) =
      (.ok 42, ⟨[("k", ⟨42, 0, 5⟩)], 10, 100⟩, false) ∧
    ((⟨[], 10, 100⟩ : GenericCache Nat).getOrFetch 5 6 "k"
        (Except.error DatadogError.timeoutError)) =
      (.error DatadogError.timeoutError, ⟨[], 10, 100⟩, true) := by
  constructor
  · exact (get_or_fetch_semantics
      (⟨[("k", ⟨42, 0, 0⟩)], 10, 100⟩ : GenericCache Nat) 5 6 "k"
      (Except.ok 99)).1 42 (⟨[("k", ⟨42, 0, 5⟩)], 10, 100⟩ : GenericCache Nat)
      (by decide)
  · exact ((get_or_fetch_semantics
      (⟨[], 10, 100⟩ : GenericCache Nat) 5 6 "k"
      (Except.error DatadogError.timeoutError)).2
      (⟨[], 10, 100⟩ : GenericCache Nat) (by decide)).2
      DatadogError.timeoutError rfl

end McpDatadog
